import Mathlib

/-!
Verification of the playback/capture engine of the world-video studio
component (src/app/components/WorldVideoStudio.tsx).

The development shallowly embeds the TypeScript source: the timeline
resolution loop of renderFrame, the playback/capture state machine
(startPlayback, stopPlayback, initialiseRecorder, stopRecorder, the
effect cleanups), and the frame compositor (drawScene and its helper
routines) as pure Lean functions.  Numbers are modelled as rationals,
mutable refs and React state as fields of an explicit Studio record,
the asynchronous MediaRecorder onstop callback as a pending
finalisation applied by a separate step, and the canvas as a trace of
resolved drawing commands.
-/

namespace WorldVideo

/-- The closed set of illustration archetypes a scene can select
(field illustration of a scene record in the content catalog). -/
inductive Illustration
  | sunrise
  | cities
  | forest
  | desert
  | oceans
  | stars
deriving DecidableEq, Repr, Inhabited

/-- Palette of a scene: background gradient stops, ambient glow tint and
accent tint.  The source field named end is renamed endColor because
end is a Lean keyword. -/
structure Palette where
  start : String
  endColor : String
  glow : String
  accent : String
deriving DecidableEq, Repr, Inhabited

/-- A scene record of the content catalog (type SceneCue of
src/app/data/scenes).  duration is in seconds. -/
structure SceneCue where
  id : String
  duration : ℚ
  title : String
  subtitle : String
  description : String
  palette : Palette
  illustration : Illustration
  facts : List String
deriving DecidableEq, Repr, Inhabited

/-- Duration of one scene in milliseconds (scene.duration * 1000 in the
source). -/
def durMs (sc : SceneCue) : ℚ := sc.duration * 1000

/-- Total duration in milliseconds:
scenes.reduce((acc, scene) => acc + scene.duration * 1000, 0). -/
def totalMs : List SceneCue → ℚ
  | [] => 0
  | sc :: rest => durMs sc + totalMs rest

/-- Cumulative start (ms) of the scene at a given index: the sum of the
durations of all earlier scenes. -/
def cumMs : List SceneCue → ℕ → ℚ
  | _, 0 => 0
  | [], _ + 1 => 0
  | sc :: rest, n + 1 => durMs sc + cumMs rest n

/-- The scene-selection loop of renderFrame (lines 131-140 of
WorldVideoStudio.tsx): walk the list accumulating durations and stop at
the first scene whose window contains elapsed.  Mirrors the source
loop: currentIndex is initialised to 0 and left at 0 when no scene
matches, and cumulative keeps its accumulated value. -/
def sceneLoopGo (elapsed : ℚ) : List SceneCue → ℕ → ℚ → ℕ × ℚ
  | [], _, cum => (0, cum)
  | sc :: rest, i, cum =>
    if elapsed < cum + durMs sc then (i, cum)
    else sceneLoopGo elapsed rest (i + 1) (cum + durMs sc)

/-- Scene selection for a given elapsed time, starting the loop at
index 0 and cumulative 0 as in the source. -/
def sceneLoop (l : List SceneCue) (elapsed : ℚ) : ℕ × ℚ :=
  sceneLoopGo elapsed l 0 0

/-- The playback state enum of the component. -/
inductive PlaybackState
  | idle
  | playing
  | rendering
  | completed
  | error
deriving DecidableEq, Repr, Inhabited

/-- State of a MediaRecorder handle as observed by the component
(recording after start() was called, inactive before start() and after
stop()). -/
inductive RState
  | inactive
  | recording
deriving DecidableEq, Repr, Inhabited

/-- The mutable state of the WorldVideoStudio component: React refs and
state hooks, plus bookkeeping that makes external resources
observable.  liveStreamTracks lists ids of capture streams whose
tracks have been acquired and not yet stopped; liveArtifacts lists ids
of object URLs created and not yet revoked; notifications counts the
setActiveScene calls; lastPaint records the arguments of the last
drawScene call; pending models a MediaRecorder onstop callback that
has been installed by stopRecorder but has not yet fired, carrying the
finalize flag and the playback state that the attached then/finally
continuation will set. -/
structure Studio where
  animation : Bool
  startTime : Option ℚ
  playbackState : PlaybackState
  activeScene : ℕ
  notifications : ℕ
  videoUrl : Option ℕ
  liveArtifacts : List ℕ
  nextArtifact : ℕ
  recorder : Option RState
  chunks : List ℕ
  streamRef : Option ℕ
  liveStreamTracks : List ℕ
  nextStream : ℕ
  lastPaint : Option (ℕ × ℚ × ℚ)
  pending : Option (Bool × Option PlaybackState)
deriving DecidableEq, Repr

/-- The environment of a run: whether the canvas ref and its 2d context
are available, whether window and the MediaRecorder capability exist,
whether captureStream returns a stream, and whether the MediaRecorder
constructor throws. -/
structure Env where
  hasCanvas : Bool
  hasCtx : Bool
  hasWindow : Bool
  hasMediaRecorder : Bool
  captureStreamOk : Bool
  encoderCtorThrows : Bool
deriving DecidableEq, Repr

/-- Initial component state: all refs null, playback state idle. -/
def initStudio : Studio :=
  { animation := false
    startTime := none
    playbackState := .idle
    activeScene := 0
    notifications := 0
    videoUrl := none
    liveArtifacts := []
    nextArtifact := 0
    recorder := none
    chunks := []
    streamRef := none
    liveStreamTracks := []
    nextStream := 0
    lastPaint := none
    pending := none }

/-- clearAnimation (lines 37-42): cancel the scheduled animation frame
and null the handle. -/
def clearAnimation (s : Studio) : Studio := { s with animation := false }

/-- stopRecorder (lines 44-68) together with the continuation its
caller attaches (.finally or .then).  If the recorder ref is set and
not inactive, recorder.stop() is called (which synchronously moves the
recorder to the inactive state) and an onstop handler is installed;
the handler and the continuation fire later, modelled by the pending
field and applied by finalizeComplete.  Otherwise stopRecorder returns
an already-resolved promise, so the attached continuation (when there
is one) runs at once with no recorder teardown. -/
def stopRecorderThen (finalize : Bool) (cont : Option PlaybackState)
    (s : Studio) : Studio :=
  if s.recorder = some RState.recording then
    { s with recorder := some RState.inactive, pending := some (finalize, cont) }
  else
    match cont with
    | some ps => { s with playbackState := ps }
    | none => s

/-- The deferred part of stopRecorder: the onstop handler (lines 49-61)
followed by the promise continuation.  When finalize is set, a blob is
built from the chunk buffer and setVideoUrl(URL.createObjectURL(blob))
stores a fresh object URL; the cleanup effect of lines 236-242 revokes
the previously stored URL when videoUrl changes.  Then the chunk
buffer is cleared, the stream tracks are stopped, the stream and
recorder refs are nulled, and the continuation sets the playback
state. -/
def finalizeComplete (s : Studio) : Studio :=
  match s.pending with
  | none => s
  | some (fin, cont) =>
    let s1 :=
      if fin then
        { s with
          liveArtifacts := s.nextArtifact ::
            (match s.videoUrl with
             | some u => s.liveArtifacts.erase u
             | none => s.liveArtifacts)
          videoUrl := some s.nextArtifact
          nextArtifact := s.nextArtifact + 1 }
      else s
    { s1 with
      chunks := []
      liveStreamTracks :=
        (match s1.streamRef with
         | some t => s1.liveStreamTracks.erase t
         | none => s1.liveStreamTracks)
      streamRef := none
      recorder := none
      pending := none
      playbackState := cont.getD s1.playbackState }

/-- initialiseRecorder (lines 156-183): returns whether recording can
proceed, together with the updated state.  The canvas and window
guards return false silently; a missing MediaRecorder capability sets
the error state; captureStream acquires a live stream; a throwing
MediaRecorder constructor sets the error state (note that the acquired
stream is not released on this path); on success the chunk buffer is
reset and the recorder and stream refs are set. -/
def initialiseRecorder (env : Env) (s : Studio) : Bool × Studio :=
  if ¬ env.hasCanvas then (false, s)
  else if ¬ env.hasWindow then (false, s)
  else if ¬ env.hasMediaRecorder then (false, { s with playbackState := .error })
  else if ¬ env.captureStreamOk then (false, s)
  else
    let sid := s.nextStream
    let s1 := { s with
      nextStream := sid + 1
      liveStreamTracks := sid :: s.liveStreamTracks }
    if env.encoderCtorThrows then
      (false, { s1 with playbackState := .error })
    else
      (true, { s1 with chunks := [], recorder := some RState.inactive,
                       streamRef := some sid })

/-- startPlayback (lines 185-210): guard on canvas and context, cancel
any in-flight frame loop, reset the clock, revoke and clear any
previously produced artifact URL, then either initialise the recorder
and enter rendering (starting the encoder) or enter playing, and
schedule the first frame.  When initialiseRecorder reports failure the
function returns before scheduling the frame loop. -/
def startPlayback (record : Bool) (env : Env) (s : Studio) : Studio :=
  if ¬ (env.hasCanvas ∧ env.hasCtx) then s
  else
    let s1 := clearAnimation s
    let s2 := { s1 with startTime := none }
    let s3 := { s2 with
      liveArtifacts :=
        (match s2.videoUrl with
         | some u => s2.liveArtifacts.erase u
         | none => s2.liveArtifacts)
      videoUrl := none }
    if record then
      match initialiseRecorder env s3 with
      | (false, s4) => s4
      | (true, s4) =>
        let s5 := { s4 with playbackState := .rendering }
        let s6 := { s5 with recorder := s5.recorder.map (fun _ => RState.recording) }
        { s6 with animation := true }
    else
      { s3 with playbackState := .playing, animation := true }

/-- renderFrame (lines 107-154), one tick of the frame loop.  The clock
anchor is set on the first tick; when elapsed reaches the total
duration the final scene is painted at progress (1, 1), the loop is
cancelled, the clock reset, and either the recorder is stopped with
finalisation (the finally continuation later setting completed) or the
state is set to completed directly; otherwise the scene-selection loop
resolves the timeline, the active-scene indicator is updated only on
change, the frame is painted and the next tick is scheduled. -/
def tick (env : Env) (l : List SceneCue) (timestamp : ℚ) (s : Studio) : Studio :=
  if ¬ (env.hasCanvas ∧ env.hasCtx) then s
  else
    let t0 := s.startTime.getD timestamp
    let s1 := { s with startTime := some t0 }
    let elapsed := timestamp - t0
    if elapsed ≥ totalMs l then
      let s2 := { s1 with
        lastPaint := some (l.length - 1, 1, 1)
        animation := false
        startTime := none }
      if s2.recorder = some RState.recording then
        stopRecorderThen true (some .completed) s2
      else
        { s2 with playbackState := .completed }
    else
      let idx := (sceneLoop l elapsed).1
      let cum := (sceneLoop l elapsed).2
      let s2 :=
        if s1.activeScene = idx then s1
        else { s1 with activeScene := idx, notifications := s1.notifications + 1 }
      let sp := (elapsed - cum) / durMs (l.getD idx default)
      let gp := elapsed / totalMs l
      { s2 with lastPaint := some (idx, sp, gp), animation := true }

/-- stopPlayback (lines 212-220): cancel the frame loop, reset the
clock; from rendering, stop the recorder with finalisation and set
idle from the then continuation; otherwise set idle at once. -/
def stopPlayback (s : Studio) : Studio :=
  let s1 := clearAnimation s
  let s2 := { s1 with startTime := none }
  if s2.playbackState = PlaybackState.rendering then
    stopRecorderThen true (some .idle) s2
  else
    { s2 with playbackState := .idle }

/-- The ondataavailable handler (lines 170-174): append an encoded
chunk to the buffer. -/
def addChunk (c : ℕ) (s : Studio) : Studio := { s with chunks := s.chunks ++ [c] }

/-- The mount-effect cleanup (lines 229-233): cancel the frame loop,
stop the recorder without finalising (ignoring the promise), reset the
clock. -/
def teardownOp (s : Studio) : Studio :=
  let s1 := clearAnimation s
  let s2 := stopRecorderThen false none s1
  { s2 with startTime := none }

/-- One step of the component: any of the operations the environment or
the user can trigger, or the firing of a pending recorder onstop
callback. -/
inductive Step (env : Env) (l : List SceneCue) : Studio → Studio → Prop
  | start (s : Studio) (record : Bool) : Step env l s (startPlayback record env s)
  | tickStep (s : Studio) (ts : ℚ) : Step env l s (tick env l ts s)
  | stop (s : Studio) : Step env l s (stopPlayback s)
  | finalize (s : Studio) : Step env l s (finalizeComplete s)
  | teardown (s : Studio) : Step env l s (teardownOp s)
  | chunk (s : Studio) (c : ℕ) : Step env l s (addChunk c s)

/-- States reachable from the initial component state. -/
def Reachable (env : Env) (l : List SceneCue) (s : Studio) : Prop :=
  Relation.ReflTransGen (Step env l) initStudio s

/-- The artifact-resource invariant: the unrevoked object URLs are
exactly the one held in videoUrl (in particular there is at most
one). -/
def artifactInv (s : Studio) : Prop := s.liveArtifacts = s.videoUrl.toList

/-- The example catalog used by the spec (three scenes of 4, 6 and 2
seconds). -/
def catalog3 : List SceneCue :=
  [ { id := "a", duration := 4, title := "a", subtitle := "a", description := "a"
      palette := default, illustration := .sunrise, facts := [] }
  , { id := "b", duration := 6, title := "b", subtitle := "b", description := "b"
      palette := default, illustration := .cities, facts := [] }
  , { id := "c", duration := 2, title := "c", subtitle := "c", description := "c"
      palette := default, illustration := .stars, facts := [] } ]

/-- Canvas width (constant CANVAS_WIDTH of the source). -/
def CANVAS_WIDTH : ℚ := 1280

/-- Canvas height (constant CANVAS_HEIGHT of the source). -/
def CANVAS_HEIGHT : ℚ := 720

/-- The anchor points of the sunrise horizon curve (CURVE_POINTS). -/
def CURVE_POINTS : List (ℚ × ℚ) :=
  [(0.1, 0.35), (0.25, 0.22), (0.5, 0.18), (0.75, 0.24), (0.9, 0.33)]

/-- The ambient float math library used by the drawing routines, kept
abstract: the value of Math.PI and the Math.sin, Math.cos, Math.pow
functions, together with the text-measurement primitive of the canvas
context under the single font active while wrapText measures. -/
structure CMath where
  pi : ℚ
  sin : ℚ → ℚ
  cos : ℚ → ℚ
  pow : ℚ → ℚ → ℚ
  measure : String → ℚ

/-- A resolved fill or stroke style: a literal color string, an rgba
color with a computed alpha component (the template strings of the
source), or a gradient with its stops. -/
inductive Fill
  | color (c : String)
  | rgba (r g b : ℕ) (a : ℚ)
  | linearGrad (x0 y0 x1 y1 : ℚ) (stops : List (ℚ × String))
  | radialGrad (x0 y0 r0 x1 y1 r1 : ℚ) (stops : List (ℚ × String))
deriving DecidableEq, Repr

/-- One segment of a canvas path. -/
inductive PathSeg
  | moveTo (x y : ℚ)
  | lineTo (x y : ℚ)
  | arc (x y radius a0 a1 : ℚ)
  | bezierTo (c1x c1y c2x c2y x y : ℚ)
  | closeP
deriving DecidableEq, Repr

/-- A resolved canvas drawing command: every painting command carries
the global alpha, style, and geometry in effect when it was issued. -/
inductive Cmd
  | save
  | restore
  | clearRect (x y w h : ℚ)
  | clip (path : List PathSeg)
  | fillRect (alpha : ℚ) (style : Fill) (x y w h : ℚ)
  | fillText (alpha : ℚ) (style : Fill) (font : String) (text : String) (x y : ℚ)
  | fillPath (alpha : ℚ) (style : Fill) (path : List PathSeg)
  | strokePath (alpha : ℚ) (style : Fill) (lineWidth : ℚ) (dash : List ℚ)
      (path : List PathSeg)
deriving DecidableEq, Repr

/-- The global alpha a command paints with, when it paints. -/
def Cmd.alphaOf : Cmd → Option ℚ
  | .fillRect a _ _ _ _ _ => some a
  | .fillText a _ _ _ _ _ => some a
  | .fillPath a _ _ => some a
  | .strokePath a _ _ _ _ => some a
  | _ => none

/-- The text a command draws, when it draws text. -/
def Cmd.textOf : Cmd → Option String
  | .fillText _ _ _ t _ _ => some t
  | _ => none

/-- The texts drawn by a command list, in order. -/
def textsOf (cmds : List Cmd) : List String := cmds.filterMap Cmd.textOf

/-- Build a path from sample points the way the source loops do: moveTo
at the first point, lineTo afterwards. -/
def polyline : List (ℚ × ℚ) → List PathSeg
  | [] => []
  | p :: rest => PathSeg.moveTo p.1 p.2 :: rest.map (fun q => PathSeg.lineTo q.1 q.2)

/-- The sample values of a loop for (v = 0; v <= bound; v += step): the
body runs with v = step * j for j below the number of multiples of
step not exceeding the bound (107 for step 12 and bound 1280, 129 for
step 10 and bound 1280, 181 for step pi/90 and bound 2*pi). -/
def stepPoints (step : ℚ) (count : ℕ) : List ℚ :=
  (List.range count).map (fun j => step * (j : ℚ))

/-- One latitude grid line of drawEarth (lines 354-365). -/
def earthLatLine (M : CMath) (centerX centerY radius lat : ℚ) : Cmd :=
  let latRadius := radius * M.cos (lat * M.pi / 180)
  let latY := centerY + radius * M.sin (lat * M.pi / 180)
  Cmd.strokePath 1 (Fill.color "rgba(255, 255, 255, 0.22)") 1.4 []
    (polyline ((stepPoints (M.pi / 90) 181).map (fun angle =>
      (centerX + latRadius * M.cos angle,
       latY + (radius * M.sin angle * M.sin (lat * M.pi / 180)) / radius))))

/-- One longitude grid line of drawEarth (lines 367-376). -/
def earthLonLine (M : CMath) (centerX centerY radius lon : ℚ) : Cmd :=
  Cmd.strokePath 1 (Fill.color "rgba(255, 255, 255, 0.22)") 1.4 []
    (polyline ((stepPoints (M.pi / 90) 181).map (fun theta =>
      (centerX + radius * M.sin theta * M.cos (lon * M.pi / 180),
       centerY + radius * M.cos theta))))

/-- drawEarth (lines 320-385): the shaded planet disk, a clipped
latitude/longitude grid, and the rim stroke. -/
def drawEarth (M : CMath) (sc : SceneCue) (sp gp : ℚ) : List Cmd :=
  let w := CANVAS_WIDTH
  let h := CANVAS_HEIGHT
  let radius := h * 0.28
  let centerX := w * 0.42 + M.sin (gp * M.pi * 2) * w * 0.06
  let centerY := h * 0.52 + M.cos (sp * M.pi) * h * 0.02
  let earthGradient := Fill.radialGrad (centerX - radius * 0.35) (centerY - radius * 0.4)
    (radius * 0.2) centerX centerY (radius * 1.1)
    [(0, "rgba(255, 255, 255, 0.65)"), (0.35, sc.palette.accent), (1, sc.palette.start)]
  let disk : List PathSeg := [PathSeg.arc centerX centerY radius 0 (M.pi * 2), PathSeg.closeP]
  [Cmd.fillPath 1 earthGradient disk, Cmd.save, Cmd.clip disk] ++
  (List.range 7).map (fun t => earthLatLine M centerX centerY radius (-60 + 20 * (t : ℚ))) ++
  (List.range 9).map (fun t => earthLonLine M centerX centerY radius (-120 + 30 * (t : ℚ))) ++
  [Cmd.restore,
   Cmd.strokePath 1 (Fill.color "rgba(255, 255, 255, 0.25)") 2.5 []
     [PathSeg.arc centerX centerY radius 0 (M.pi * 2)]]

/-- drawAtmosphericRings (lines 387-404): four dashed concentric rings
whose radii oscillate with scene progress. -/
def drawAtmosphericRings (M : CMath) (sp : ℚ) (accent : String) : List Cmd :=
  let baseRadius := CANVAS_HEIGHT * 0.32
  let centerX := CANVAS_WIDTH * 0.42
  let centerY := CANVAS_HEIGHT * 0.52
  [Cmd.save] ++
  (List.range 4).map (fun i =>
    let expansion := baseRadius + (i : ℚ) * 42 + M.sin (sp * M.pi * 2 + (i : ℚ)) * 8
    Cmd.strokePath 1 (Fill.color (accent ++ "aa")) 1.2 [6, 14]
      [PathSeg.arc centerX centerY expansion 0 (M.pi * 2)]) ++
  [Cmd.restore]

/-- drawSunrise (lines 481-507).  The source also computes a controlY
value that it never uses; that dead computation is omitted here. -/
def drawSunrise (M : CMath) (progress : ℚ) (accent : String) : List Cmd :=
  let w := CANVAS_WIDTH
  let h := CANVAS_HEIGHT
  let sunY := h * (0.65 - M.pow progress 0.7 * 0.25)
  let sunRadius : ℚ := 220
  let gradient := Fill.radialGrad (w * 0.48) sunY (sunRadius * 0.4) (w * 0.5) sunY sunRadius
    [(0, accent), (1, "rgba(255, 93, 0, 0)")]
  [Cmd.fillPath 1 gradient [PathSeg.arc (w * 0.5) sunY sunRadius 0 (M.pi * 2)],
   Cmd.strokePath 1 (Fill.color "rgba(255, 255, 255, 0.18)") 3 []
     ([PathSeg.moveTo (w * 0.18) (h * 0.68)] ++
      CURVE_POINTS.enum.map (fun pr =>
        let pointProgress := progress * ((pr.1 : ℚ) + 1)
        let controlX := w * (pr.2.1 + 0.08 * M.sin (pointProgress * M.pi))
        PathSeg.lineTo controlX (h * pr.2.2)) ++
      [PathSeg.lineTo (w * 0.82) (h * 0.72)])]

/-- The silhouette bar drawn unconditionally by one iteration of
drawCityLights (line 519). -/
def cityBar (M : CMath) (progress : ℚ) (layer i : ℕ) : Cmd :=
  let opacity := 0.15 + (layer : ℚ) * 0.1
  let buildingHeight := 80 + (layer : ℚ) * 30
  let x := CANVAS_WIDTH * 0.28 + (i : ℚ) * 24 + M.sin (progress * 2 + (i : ℚ)) * 8
  let hgt := buildingHeight + M.sin (progress * 3 + (i : ℚ) * 0.4) * 18
  Cmd.fillRect 1 (Fill.rgba 255 255 255 opacity) x
    (CANVAS_HEIGHT - hgt - (layer : ℚ) * 10) 18 hgt

/-- The lit-window accent drawn by one iteration of drawCityLights when
Math.random() > 0.7 (lines 520-524). -/
def cityAccent (M : CMath) (progress : ℚ) (accent : String) (layer i : ℕ) : Cmd :=
  let buildingHeight := 80 + (layer : ℚ) * 30
  let x := CANVAS_WIDTH * 0.28 + (i : ℚ) * 24 + M.sin (progress * 2 + (i : ℚ)) * 8
  let hgt := buildingHeight + M.sin (progress * 3 + (i : ℚ) * 0.4) * 18
  Cmd.fillRect 1 (Fill.color (accent ++ "aa")) (x + 4)
    (CANVAS_HEIGHT - hgt - (layer : ℚ) * 10 + 18) 6 12

/-- One inner-loop iteration of drawCityLights: the bar, plus the
accent when the drawn random value exceeds 0.7. -/
def cityIter (M : CMath) (progress : ℚ) (accent : String) (layer i : ℕ) (rv : ℚ) :
    List Cmd :=
  cityBar M progress layer i ::
    (if rv > 0.7 then [cityAccent M progress accent layer i] else [])

/-- The (layer, i) iteration space of drawCityLights: 4 layers of 22
bars, in source order. -/
def cityPairs : List (ℕ × ℕ) :=
  (List.range 4).flatMap (fun layer => (List.range 22).map (fun i => (layer, i)))

/-- The loop of drawCityLights over the iteration space, consuming one
ambient random number per iteration; returns the trace and the next
unconsumed random index. -/
def cityGo (M : CMath) (progress : ℚ) (accent : String) (r : ℕ → ℚ) :
    List (ℕ × ℕ) → ℕ → List Cmd × ℕ
  | [], k => ([], k)
  | li :: rest, k =>
    let tail := cityGo M progress accent r rest (k + 1)
    (cityIter M progress accent li.1 li.2 (r k) ++ tail.1, tail.2)

/-- drawCityLights (lines 509-527), the only routine that reads
Math.random, modelled as a stream r with a consumption index k. -/
def drawCityLights (M : CMath) (progress : ℚ) (accent : String) (r : ℕ → ℚ) (k : ℕ) :
    List Cmd × ℕ :=
  cityGo M progress accent r cityPairs k

/-- The randomness-independent skeleton of drawCityLights: its 88
silhouette bars in order. -/
def cityBars (M : CMath) (progress : ℚ) : List Cmd :=
  cityPairs.map (fun li => cityBar M progress li.1 li.2)

/-- drawForestCanopy (lines 529-551). -/
def drawForestCanopy (M : CMath) (progress : ℚ) (accent : String) : List Cmd :=
  [Cmd.save] ++
  (List.range 90).map (fun i =>
    let baseX := ((i : ℚ) / 90) * CANVAS_WIDTH
    let baseY := CANVAS_HEIGHT * 0.72 + M.sin (progress * 2 + (i : ℚ) * 0.3) * 12
    let canopyHeight := 140 + M.sin (progress * 3 + (i : ℚ)) * 26
    Cmd.fillPath 1 (Fill.color (accent ++ "55"))
      [PathSeg.moveTo baseX baseY,
       PathSeg.bezierTo (baseX + 12) (baseY - canopyHeight * 0.5)
         (baseX + 26) (baseY - canopyHeight) (baseX + 42) baseY,
       PathSeg.closeP]) ++
  [Cmd.restore]

/-- drawDesert (lines 553-574); the accent parameter is unused in the
source as well. -/
def drawDesert (M : CMath) (progress : ℚ) (accent : String) : List Cmd :=
  [Cmd.save] ++
  (List.range 5).map (fun i =>
    let offset := (i : ℚ) * 0.25
    let amplitude := 40 + (i : ℚ) * 12
    Cmd.fillPath 1 (Fill.rgba 255 208 138 (0.12 + (i : ℚ) * 0.07))
      ([PathSeg.moveTo 0 (CANVAS_HEIGHT * 0.75 + (i : ℚ) * 18)] ++
       (stepPoints 12 107).map (fun x =>
         PathSeg.lineTo x (CANVAS_HEIGHT * 0.75 +
           M.sin (x / CANVAS_WIDTH * M.pi * 2 + progress * 2 + offset) * amplitude)) ++
       [PathSeg.lineTo CANVAS_WIDTH CANVAS_HEIGHT,
        PathSeg.lineTo 0 CANVAS_HEIGHT,
        PathSeg.closeP])) ++
  [Cmd.restore]

/-- drawSea (lines 576-593). -/
def drawSea (M : CMath) (progress : ℚ) (accent : String) : List Cmd :=
  [Cmd.save] ++
  (List.range 6).map (fun wave =>
    let offset := (wave : ℚ) * 18
    Cmd.strokePath 1 (Fill.color (accent ++ "bb")) 2 []
      (polyline ((stepPoints 10 129).map (fun x =>
        (x, CANVAS_HEIGHT * 0.62 +
          M.sin (x / CANVAS_WIDTH * M.pi * 4 + progress * 4 + (wave : ℚ)) *
            (12 + (wave : ℚ) * 3) + offset))))) ++
  [Cmd.restore]

/-- drawStarscape (lines 595-610): an index-derived star field with a
sinusoidal twinkle and one soft accent halo. -/
def drawStarscape (M : CMath) (progress : ℚ) (accent : String) : List Cmd :=
  [Cmd.save] ++
  (List.range 120).map (fun i =>
    let x := ((i * 97) % 1280 : ℕ)
    let y := (((i * 47) % 720 : ℕ) : ℚ) * (0.8 + 0.2 * M.sin (progress * 6 + (i : ℚ)))
    let size := (M.sin (progress * 8 + (i : ℚ)) + 1) * 0.8 + 0.6
    Cmd.fillRect 1 (Fill.color "rgba(255, 255, 255, 0.9)") (x : ℚ) y size size) ++
  [Cmd.fillPath 1 (Fill.color (accent ++ "88"))
     [PathSeg.arc (CANVAS_WIDTH * 0.78) (CANVAS_HEIGHT * 0.26)
       (60 + M.sin (progress * 4) * 12) 0 (M.pi * 2)],
   Cmd.restore]

/-- The title-card opacity law (line 435):
Math.min(1, Math.max(0, Math.sin(sceneProgress * Math.PI))). -/
def titleOpacity (M : CMath) (sp : ℚ) : ℚ := min 1 (max 0 (M.sin (sp * M.pi)))

/-- The recursion of wrapText (lines 456-479): words are accumulated
into a line; when the candidate line measures wider than maxWidth and
the line is nonempty, the line is committed (drawn) and the word
starts the next line; the final line is drawn trimmed. -/
def wrapGo (M : CMath) (alpha : ℚ) (style : Fill) (font : String)
    (x maxWidth lineHeight : ℚ) : List String → String → ℚ → List Cmd
  | [], line, y => [Cmd.fillText alpha style font line.trim x y]
  | word :: ws, line, y =>
    let testLine := line ++ word ++ " "
    if M.measure testLine > maxWidth ∧ line ≠ "" then
      Cmd.fillText alpha style font line x y ::
        wrapGo M alpha style font x maxWidth lineHeight ws (word ++ " ") (y + lineHeight)
    else
      wrapGo M alpha style font x maxWidth lineHeight ws testLine y

/-- wrapText: split the text on single spaces and run the greedy
accumulation, drawing under the alpha, style and font in effect at the
call site. -/
def wrapText (M : CMath) (alpha : ℚ) (style : Fill) (font : String)
    (text : String) (x startY maxWidth lineHeight : ℚ) : List Cmd :=
  wrapGo M alpha style font x maxWidth lineHeight (text.splitOn " ") "" startY

/-- Greedy wrapping as the spec words it: accumulate words on a line
until the candidate line (the line extended with the next word)
measures wider than the fixed column width, then commit the line and
continue with that word; emit the remaining line at the end.  Written
from the spec sentence, to be compared with the source wrapText. -/
def greedyWrapSpec (measure : String → ℚ) (maxWidth : ℚ) :
    List String → String → List String
  | [], line => [line.trim]
  | word :: ws, line =>
    let candidate := line ++ word ++ " "
    if measure candidate > maxWidth ∧ line ≠ "" then
      line :: greedyWrapSpec measure maxWidth ws (word ++ " ")
    else
      greedyWrapSpec measure maxWidth ws candidate

/-- drawTitleCard (lines 431-454): the translucent backing panel, title,
subtitle and word-wrapped description, all under the single global
alpha set from the opacity law. -/
def drawTitleCard (M : CMath) (sc : SceneCue) (sp : ℚ) : List Cmd :=
  let baseX := CANVAS_WIDTH * 0.64
  let baseY : ℚ := 160
  let opacity := titleOpacity M sp
  [Cmd.save,
   Cmd.fillRect opacity (Fill.color "rgba(3, 9, 20, 0.4)") (baseX - 60) (baseY - 50)
     (CANVAS_WIDTH * 0.26) 240,
   Cmd.fillText opacity (Fill.color "rgba(255, 255, 255, 0.85)")
     "700 36px var(--font-arabic)" sc.title baseX baseY,
   Cmd.fillText opacity (Fill.color "rgba(255, 255, 255, 0.75)")
     "400 24px var(--font-arabic)" sc.subtitle baseX (baseY + 42)] ++
  wrapText M opacity (Fill.color "rgba(255, 255, 255, 0.75)")
    "400 24px var(--font-arabic)" sc.description baseX (baseY + 90)
    (CANVAS_WIDTH * 0.24) 30 ++
  [Cmd.restore]

/-- drawIllustration (lines 406-429): dispatch on the scene archetype.
Only the cities routine consumes the ambient random stream. -/
def drawIllustration (M : CMath) (sc : SceneCue) (sp : ℚ) (r : ℕ → ℚ) (k : ℕ) :
    List Cmd × ℕ :=
  match sc.illustration with
  | .sunrise => (drawSunrise M sp sc.palette.accent, k)
  | .cities => drawCityLights M sp sc.palette.accent r k
  | .forest => (drawForestCanopy M sp sc.palette.accent, k)
  | .desert => (drawDesert M sp sc.palette.accent, k)
  | .oceans => (drawSea M sp sc.palette.accent, k)
  | .stars => (drawStarscape M sp sc.palette.accent, k)

/-- drawScene (lines 70-105): clear, background gradient wash, ambient
glow, planet, rings, scene illustration, title card. -/
def drawScene (M : CMath) (sc : SceneCue) (sp gp : ℚ) (r : ℕ → ℚ) (k : ℕ) :
    List Cmd × ℕ :=
  let w := CANVAS_WIDTH
  let h := CANVAS_HEIGHT
  let backgroundGradient := Fill.linearGrad 0 0 0 h
    [(0, sc.palette.start), (1, sc.palette.endColor)]
  let glowRadius := h * (0.45 + M.sin (gp * M.pi * 2) * 0.03)
  let glowGradient := Fill.radialGrad (w * 0.5) (h * 0.52) (glowRadius * 0.2)
    (w * 0.5) (h * 0.53) glowRadius [(0, sc.palette.glow), (1, "rgba(0,0,0,0)")]
  let ill := drawIllustration M sc sp r k
  ([Cmd.save,
    Cmd.clearRect 0 0 w h,
    Cmd.fillRect 1 backgroundGradient 0 0 w h,
    Cmd.fillRect 1 glowGradient 0 0 w h] ++
   drawEarth M sc sp gp ++
   drawAtmosphericRings M sp sc.palette.accent ++
   ill.1 ++
   drawTitleCard M sc sp ++
   [Cmd.restore], ill.2)

/-- A concrete math environment for witnesses. -/
def M0 : CMath :=
  { pi := 3.141592653589793
    sin := fun _ => 0
    cos := fun _ => 0
    pow := fun _ _ => 0
    measure := fun s => (s.length : ℚ) }

/-- Environment in which every capability is available. -/
def envOk : Env :=
  { hasCanvas := true
    hasCtx := true
    hasWindow := true
    hasMediaRecorder := true
    captureStreamOk := true
    encoderCtorThrows := false }

/-- Environment in which the MediaRecorder constructor throws after the
capture stream has been acquired. -/
def envEncFail : Env :=
  { hasCanvas := true
    hasCtx := true
    hasWindow := true
    hasMediaRecorder := true
    captureStreamOk := true
    encoderCtorThrows := true }

/-- Environment without the MediaRecorder capability. -/
def envNoCap : Env :=
  { hasCanvas := true
    hasCtx := true
    hasWindow := true
    hasMediaRecorder := false
    captureStreamOk := true
    encoderCtorThrows := false }

/-- A studio state in the middle of a recording session. -/
def sRendering : Studio :=
  { initStudio with
    playbackState := .rendering
    animation := true
    startTime := some 0
    recorder := some RState.recording
    streamRef := some 0
    liveStreamTracks := [0]
    nextStream := 1 }

/-- A studio state in the middle of a plain preview playback. -/
def sPlaying : Studio :=
  { initStudio with
    playbackState := .playing
    animation := true
    startTime := some 0 }

/-- A studio state after a completed recording holding one produced
artifact. -/
def sCompleted : Studio :=
  { initStudio with
    playbackState := .completed
    videoUrl := some 0
    liveArtifacts := [0]
    nextArtifact := 1 }

lemma totalMs_nonneg {l : List SceneCue} (hd : ∀ sc ∈ l, 0 ≤ sc.duration) :
    0 ≤ totalMs l := by
  induction l with
  | nil => simp [totalMs]
  | cons sc rest ih =>
    have h1 : 0 ≤ sc.duration := hd sc (by simp)
    have h2 : 0 ≤ totalMs rest := ih (fun x hx => hd x (by simp [hx]))
    have : 0 ≤ durMs sc := by
      unfold durMs; positivity
    unfold totalMs; linarith

lemma cumMs_nonneg {l : List SceneCue} (hd : ∀ sc ∈ l, 0 ≤ sc.duration) :
    ∀ n, 0 ≤ cumMs l n := by
  induction l with
  | nil => intro n; cases n <;> simp [cumMs]
  | cons sc rest ih =>
    intro n
    cases n with
    | zero => simp [cumMs]
    | succ m =>
      have h1 : 0 ≤ sc.duration := hd sc (by simp)
      have h2 : 0 ≤ cumMs rest m := ih (fun x hx => hd x (by simp [hx])) m
      have : 0 ≤ durMs sc := by unfold durMs; positivity
      unfold cumMs; linarith

lemma cumMs_succ_of_lt :
    ∀ (l : List SceneCue) (j : ℕ), j < l.length →
      cumMs l (j + 1) = cumMs l j + durMs (l.getD j default) := by
  intro l
  induction l with
  | nil => intro j hj; simp at hj
  | cons sc rest ih =>
    intro j hj
    cases j with
    | zero => simp [cumMs]
    | succ m =>
      have hm : m < rest.length := by simpa using hj
      have := ih m hm
      simp [cumMs, this]
      ring

lemma cumMs_le_succ {l : List SceneCue} (hd : ∀ sc ∈ l, 0 ≤ sc.duration) :
    ∀ n, cumMs l n ≤ cumMs l (n + 1) := by
  induction l with
  | nil =>
    intro n
    cases n <;> simp [cumMs]
  | cons sc rest ih =>
    intro n
    cases n with
    | zero =>
      have h1 : 0 ≤ sc.duration := hd sc (by simp)
      have h2 : 0 ≤ cumMs rest 0 := by simp [cumMs]
      have hdur : 0 ≤ durMs sc := by unfold durMs; positivity
      simp only [cumMs]
      linarith
    | succ m =>
      have := ih (fun x hx => hd x (by simp [hx])) m
      simp only [cumMs]
      linarith

lemma cumMs_mono {l : List SceneCue} (hd : ∀ sc ∈ l, 0 ≤ sc.duration)
    {j k : ℕ} (hjk : j ≤ k) : cumMs l j ≤ cumMs l k := by
  induction k with
  | zero =>
    have : j = 0 := Nat.le_zero.mp hjk
    simp [this]
  | succ m ih =>
    rcases Nat.le_succ_iff.mp hjk with h | h
    · exact le_trans (ih h) (cumMs_le_succ hd m)
    · simp [h]

/-- Correctness of the scene-selection loop: when elapsed lies strictly
inside the remaining total, the loop finds a genuine index whose
window contains elapsed. -/
lemma sceneLoopGo_spec (e : ℚ) :
    ∀ (l : List SceneCue) (i0 : ℕ) (c0 : ℚ),
      c0 ≤ e → e < c0 + totalMs l →
      ∃ k, k < l.length ∧
        sceneLoopGo e l i0 c0 = (i0 + k, c0 + cumMs l k) ∧
        c0 + cumMs l k ≤ e ∧
        e < c0 + cumMs l k + durMs (l.getD k default) := by
  intro l
  induction l with
  | nil =>
    intro i0 c0 hle hlt
    simp [totalMs] at hlt
    exact absurd hlt (not_lt.mpr hle)
  | cons sc rest ih =>
    intro i0 c0 hle hlt
    by_cases hbr : e < c0 + durMs sc
    · refine ⟨0, by simp, ?_, ?_, ?_⟩
      · simp [sceneLoopGo, hbr, cumMs]
      · simpa [cumMs] using hle
      · simpa [cumMs] using hbr
    · push_neg at hbr
      have hlt' : e < (c0 + durMs sc) + totalMs rest := by
        unfold totalMs at hlt; linarith
      obtain ⟨k, hk, heq, hge, hwin⟩ := ih (i0 + 1) (c0 + durMs sc) hbr hlt'
      refine ⟨k + 1, by simpa using Nat.succ_lt_succ hk, ?_, ?_, ?_⟩
      · have : sceneLoopGo e (sc :: rest) i0 c0 =
            sceneLoopGo e rest (i0 + 1) (c0 + durMs sc) := by
          simp [sceneLoopGo, not_lt.mpr hbr]
        rw [this, heq]
        simp only [cumMs, Prod.mk.injEq]
        exact ⟨by omega, by ring⟩
      · simp only [cumMs]; linarith
      · simp only [cumMs, List.getD_cons_succ]; linarith

/-- Uniqueness of the containing window: two indices whose windows both
contain e are equal (durations are nonnegative, so windows are
pairwise disjoint). -/
lemma window_unique {l : List SceneCue} (hd : ∀ sc ∈ l, 0 ≤ sc.duration)
    (e : ℚ) (j k : ℕ) (hj : j < l.length) (hk : k < l.length)
    (hj1 : cumMs l j ≤ e) (hj2 : e < cumMs l j + durMs (l.getD j default))
    (hk1 : cumMs l k ≤ e) (hk2 : e < cumMs l k + durMs (l.getD k default)) :
    j = k := by
  by_contra hne
  rcases Nat.lt_or_ge j k with hlt | hge
  · have h1 : cumMs l (j + 1) ≤ cumMs l k := cumMs_mono hd hlt
    have h2 : cumMs l (j + 1) = cumMs l j + durMs (l.getD j default) :=
      cumMs_succ_of_lt l j hj
    linarith
  · have hlt' : k < j := lt_of_le_of_ne hge (fun h => hne h.symm)
    have h1 : cumMs l (k + 1) ≤ cumMs l j := cumMs_mono hd hlt'
    have h2 : cumMs l (k + 1) = cumMs l k + durMs (l.getD k default) :=
      cumMs_succ_of_lt l k hk
    linarith

/-- C2: for every elapsed value e in [0, total), the scene-selection
loop inside the tick selects exactly one scene index whose
cumulative-duration window contains e, and the scene progress
(e - sceneCumulativeStart) / sceneDurationMs lies in [0, 1); on the
spec catalog of 4s, 6s, 2s scenes, elapsed 5000 yields scene index 1,
scene progress 1/6 and global progress 5/12. -/
theorem timeline_resolution_C2 :
    (∀ (l : List SceneCue) (e : ℚ), (∀ sc ∈ l, 0 < sc.duration) →
      0 ≤ e → e < totalMs l →
      (sceneLoop l e).1 < l.length ∧
      (sceneLoop l e).2 = cumMs l (sceneLoop l e).1 ∧
      cumMs l (sceneLoop l e).1 ≤ e ∧
      e < cumMs l (sceneLoop l e).1 + durMs (l.getD (sceneLoop l e).1 default) ∧
      (∀ j, j < l.length → cumMs l j ≤ e →
        e < cumMs l j + durMs (l.getD j default) → j = (sceneLoop l e).1) ∧
      0 ≤ (e - (sceneLoop l e).2) / durMs (l.getD (sceneLoop l e).1 default) ∧
      (e - (sceneLoop l e).2) / durMs (l.getD (sceneLoop l e).1 default) < 1) ∧
    (sceneLoop catalog3 5000 = (1, 4000) ∧
     ((5000 : ℚ) - (sceneLoop catalog3 5000).2) /
        durMs (catalog3.getD (sceneLoop catalog3 5000).1 default) = 1 / 6 ∧
     (5000 : ℚ) / totalMs catalog3 = 5 / 12) := by
  constructor
  · intro l e hd h0 hlt
    obtain ⟨k, hk, heq, hge, hwin⟩ :=
      sceneLoopGo_spec e l 0 0 h0 (by simpa using hlt)
    have hloop : sceneLoop l e = (k, cumMs l k) := by
      simpa [sceneLoop] using heq
    have hd0 : ∀ sc ∈ l, 0 ≤ sc.duration := fun sc h => le_of_lt (hd sc h)
    have hge' : cumMs l k ≤ e := by simpa using hge
    have hwin' : e < cumMs l k + durMs (l.getD k default) := by
      simpa using hwin
    have hmem : l.getD k default ∈ l := by
      rw [List.getD_eq_getElem l default hk]
      exact List.getElem_mem hk
    have hdpos : 0 < durMs (l.getD k default) := by
      have := hd _ hmem
      unfold durMs
      positivity
    rw [hloop]
    refine ⟨hk, rfl, hge', hwin', ?_, ?_, ?_⟩
    · intro j hj hj1 hj2
      exact window_unique hd0 e j k hj hk hj1 hj2 hge' hwin'
    · exact div_nonneg (by linarith) (le_of_lt hdpos)
    · exact (div_lt_one hdpos).mpr (by linarith)
  · refine ⟨?_, ?_, ?_⟩
    · norm_num [sceneLoop, sceneLoopGo, catalog3, durMs]
    · norm_num [sceneLoop, sceneLoopGo, catalog3, durMs]
    · norm_num [totalMs, catalog3, durMs]

/-- Witness for the timeline theorem at the spec catalog and elapsed
5000. -/
theorem timeline_resolution_C2_witness :
    (sceneLoop catalog3 5000).1 < catalog3.length ∧
    (sceneLoop catalog3 5000).2 = cumMs catalog3 (sceneLoop catalog3 5000).1 ∧
    cumMs catalog3 (sceneLoop catalog3 5000).1 ≤ 5000 ∧
    (5000 : ℚ) < cumMs catalog3 (sceneLoop catalog3 5000).1 +
      durMs (catalog3.getD (sceneLoop catalog3 5000).1 default) ∧
    (∀ j, j < catalog3.length → cumMs catalog3 j ≤ 5000 →
      (5000 : ℚ) < cumMs catalog3 j + durMs (catalog3.getD j default) →
      j = (sceneLoop catalog3 5000).1) ∧
    0 ≤ ((5000 : ℚ) - (sceneLoop catalog3 5000).2) /
      durMs (catalog3.getD (sceneLoop catalog3 5000).1 default) ∧
    ((5000 : ℚ) - (sceneLoop catalog3 5000).2) /
      durMs (catalog3.getD (sceneLoop catalog3 5000).1 default) < 1 :=
  timeline_resolution_C2.1 catalog3 5000
    (by norm_num [catalog3])
    (by norm_num)
    (by norm_num [totalMs, catalog3, durMs])

/-- C1 counterexample: when the encoder constructor throws after the
capture stream was acquired, start(record=true) does reach the error
state with no frame loop and null recorder and stream refs, but the
tracks of the acquired stream are never stopped, so a live stream
resource remains, contrary to the claim that any partially-acquired
stream resources are released. -/
theorem capture_failure_leak_counterexample_C1 :
    (startPlayback true envEncFail initStudio).playbackState = PlaybackState.error ∧
    (startPlayback true envEncFail initStudio).animation = false ∧
    (startPlayback true envEncFail initStudio).recorder = none ∧
    (startPlayback true envEncFail initStudio).streamRef = none ∧
    (startPlayback true envEncFail initStudio).liveStreamTracks ≠ [] := by
  decide

/-- C1 amended: a failed capture initialisation on start(record=true)
transitions to error, never starts the frame loop, and retains no
recorder or stream handle reference; when the capture capability is
absent no stream is ever acquired, while when the encoder constructor
throws the acquired stream stays live (its tracks are not stopped). -/
theorem capture_init_failure_C1 (env : Env) (s : Studio)
    (hce : env.hasCanvas = true) (hcx : env.hasCtx = true)
    (hw : env.hasWindow = true)
    (hrec : s.recorder = none) (hstr : s.streamRef = none) :
    (env.hasMediaRecorder = false →
      (startPlayback true env s).playbackState = PlaybackState.error ∧
      (startPlayback true env s).animation = false ∧
      (startPlayback true env s).recorder = none ∧
      (startPlayback true env s).streamRef = none ∧
      (startPlayback true env s).liveStreamTracks = s.liveStreamTracks) ∧
    (env.hasMediaRecorder = true → env.captureStreamOk = true →
     env.encoderCtorThrows = true →
      (startPlayback true env s).playbackState = PlaybackState.error ∧
      (startPlayback true env s).animation = false ∧
      (startPlayback true env s).recorder = none ∧
      (startPlayback true env s).streamRef = none ∧
      (startPlayback true env s).liveStreamTracks =
        s.nextStream :: s.liveStreamTracks) := by
  constructor
  · intro hmr
    simp [startPlayback, initialiseRecorder, clearAnimation,
      hce, hcx, hw, hmr, hrec, hstr]
  · intro hmr hcs hth
    simp [startPlayback, initialiseRecorder, clearAnimation,
      hce, hcx, hw, hmr, hcs, hth, hrec, hstr]

/-- Witness for the amended capture-failure theorem in the
capability-absent environment. -/
theorem capture_init_failure_C1_witness :
    (startPlayback true envNoCap initStudio).playbackState = PlaybackState.error ∧
    (startPlayback true envNoCap initStudio).animation = false ∧
    (startPlayback true envNoCap initStudio).recorder = none ∧
    (startPlayback true envNoCap initStudio).streamRef = none ∧
    (startPlayback true envNoCap initStudio).liveStreamTracks =
      initStudio.liveStreamTracks :=
  (capture_init_failure_C1 envNoCap initStudio rfl rfl rfl rfl rfl).1 rfl

/-- C3: a tick that observes elapsed at or beyond the total duration
paints the final scene at progress (1, 1), cancels the frame loop,
resets the clock and transitions to completed — finalising the capture
session first (producing the artifact) when one is active, and
transitioning directly with no artifact when none is. -/
theorem tick_completion_C3 (env : Env) (l : List SceneCue) (s : Studio) (ts t0 : ℚ)
    (hce : env.hasCanvas = true) (hcx : env.hasCtx = true)
    (ht : s.startTime = some t0) (he : ts - t0 ≥ totalMs l) :
    (tick env l ts s).lastPaint = some (l.length - 1, 1, 1) ∧
    (tick env l ts s).animation = false ∧
    (tick env l ts s).startTime = none ∧
    (s.recorder = some RState.recording →
      (tick env l ts s).playbackState = s.playbackState ∧
      (tick env l ts s).pending = some (true, some PlaybackState.completed) ∧
      (finalizeComplete (tick env l ts s)).playbackState = PlaybackState.completed ∧
      (finalizeComplete (tick env l ts s)).videoUrl = some s.nextArtifact) ∧
    (s.recorder ≠ some RState.recording →
      (tick env l ts s).playbackState = PlaybackState.completed ∧
      (tick env l ts s).videoUrl = s.videoUrl ∧
      (tick env l ts s).pending = s.pending) := by
  by_cases hrec : s.recorder = some RState.recording
  · simp [tick, stopRecorderThen, finalizeComplete, hce, hcx, ht, he, hrec]
  · simp [tick, stopRecorderThen, finalizeComplete, hce, hcx, ht, he, hrec]

/-- Witness for the completion-tick theorem: the recording session of
sRendering ends at timestamp 12000 on the spec catalog. -/
theorem tick_completion_C3_witness :
    (tick envOk catalog3 12000 sRendering).lastPaint =
      some (catalog3.length - 1, 1, 1) ∧
    (finalizeComplete (tick envOk catalog3 12000 sRendering)).playbackState =
      PlaybackState.completed ∧
    (finalizeComplete (tick envOk catalog3 12000 sRendering)).videoUrl =
      some sRendering.nextArtifact := by
  have h := tick_completion_C3 envOk catalog3 sRendering 12000 0 rfl rfl rfl
    (by norm_num [totalMs, catalog3, durMs])
  exact ⟨h.1, (h.2.2.2.1 rfl).2.2.1, (h.2.2.2.1 rfl).2.2.2⟩

/-- C5: stopping an active capture session is two-phase: at
stop-request time (user stop from rendering, or the end-of-timeline
tick) the playback state is not yet updated and the artifact reference
is unchanged; only the deferred onstop finalisation produces the
artifact and then sets the idle or completed state, so the artifact
exists before the state says so. -/
theorem stop_two_phase_C5 (env : Env) (l : List SceneCue) (s : Studio) (ts t0 : ℚ)
    (hrec : s.recorder = some RState.recording) :
    (s.playbackState = PlaybackState.rendering →
      (stopPlayback s).playbackState = PlaybackState.rendering ∧
      (stopPlayback s).videoUrl = s.videoUrl ∧
      (stopPlayback s).pending = some (true, some PlaybackState.idle) ∧
      (finalizeComplete (stopPlayback s)).playbackState = PlaybackState.idle ∧
      (finalizeComplete (stopPlayback s)).videoUrl = some s.nextArtifact) ∧
    (env.hasCanvas = true → env.hasCtx = true → s.startTime = some t0 →
     ts - t0 ≥ totalMs l →
      (tick env l ts s).playbackState = s.playbackState ∧
      (tick env l ts s).videoUrl = s.videoUrl ∧
      (finalizeComplete (tick env l ts s)).playbackState = PlaybackState.completed ∧
      (finalizeComplete (tick env l ts s)).videoUrl = some s.nextArtifact) := by
  constructor
  · intro hps
    simp [stopPlayback, clearAnimation, stopRecorderThen, finalizeComplete, hps, hrec]
  · intro hce hcx ht he
    simp [tick, stopRecorderThen, finalizeComplete, hce, hcx, ht, he, hrec]

/-- Witness for the two-phase stop theorem on the recording state
sRendering. -/
theorem stop_two_phase_C5_witness :
    (stopPlayback sRendering).playbackState = PlaybackState.rendering ∧
    (finalizeComplete (stopPlayback sRendering)).playbackState =
      PlaybackState.idle ∧
    (finalizeComplete (stopPlayback sRendering)).videoUrl =
      some sRendering.nextArtifact := by
  have h := (stop_two_phase_C5 envOk catalog3 sRendering 0 0 rfl).1 rfl
  exact ⟨h.1, h.2.2.2.1, h.2.2.2.2⟩

/-- C6: user-initiated stop cancels the frame loop and resets the
clock; from playing it settles into idle at once with no artifact
produced, and from rendering it finalises the capture session and
settles into idle with exactly one artifact produced. -/
theorem stop_settlement_C6 (s : Studio) :
    (stopPlayback s).animation = false ∧
    (stopPlayback s).startTime = none ∧
    (s.playbackState = PlaybackState.playing →
      (stopPlayback s).playbackState = PlaybackState.idle ∧
      (stopPlayback s).videoUrl = s.videoUrl ∧
      (stopPlayback s).pending = s.pending) ∧
    (s.playbackState = PlaybackState.rendering →
     s.recorder = some RState.recording → s.videoUrl = none →
     s.liveArtifacts = [] →
      (stopPlayback s).playbackState = PlaybackState.rendering ∧
      (finalizeComplete (stopPlayback s)).playbackState = PlaybackState.idle ∧
      (finalizeComplete (stopPlayback s)).videoUrl = some s.nextArtifact ∧
      (finalizeComplete (stopPlayback s)).liveArtifacts = [s.nextArtifact]) := by
  refine ⟨?_, ?_, ?_, ?_⟩
  · by_cases hps : s.playbackState = PlaybackState.rendering <;>
      simp [stopPlayback, clearAnimation, stopRecorderThen, hps] <;>
      split <;> simp
  · by_cases hps : s.playbackState = PlaybackState.rendering <;>
      simp [stopPlayback, clearAnimation, stopRecorderThen, hps] <;>
      split <;> simp
  · intro hps
    simp [stopPlayback, clearAnimation, stopRecorderThen, hps]
  · intro hps hrec hv hla
    simp [stopPlayback, clearAnimation, stopRecorderThen, finalizeComplete,
      hps, hrec, hv, hla]

/-- Witness for the stop-settlement theorem on the recording state
sRendering. -/
theorem stop_settlement_C6_witness :
    (stopPlayback sRendering).animation = false ∧
    (finalizeComplete (stopPlayback sRendering)).playbackState =
      PlaybackState.idle ∧
    (finalizeComplete (stopPlayback sRendering)).liveArtifacts =
      [sRendering.nextArtifact] := by
  have h := stop_settlement_C6 sRendering
  exact ⟨h.1, (h.2.2.2 rfl rfl rfl rfl).2.1, (h.2.2.2 rfl rfl rfl rfl).2.2.2⟩

/-- C9: a tick before the end of the timeline updates the
externally-visible active-scene indicator only when the resolved index
differs from the current one; a tick whose resolved index equals the
indicated one issues no notification. -/
theorem tick_notification_C9 (env : Env) (l : List SceneCue) (s : Studio)
    (ts t0 : ℚ) (hce : env.hasCanvas = true) (hcx : env.hasCtx = true)
    (ht : s.startTime = some t0) (hlt : ts - t0 < totalMs l) :
    (s.activeScene = (sceneLoop l (ts - t0)).1 →
      (tick env l ts s).notifications = s.notifications ∧
      (tick env l ts s).activeScene = s.activeScene) ∧
    (s.activeScene ≠ (sceneLoop l (ts - t0)).1 →
      (tick env l ts s).notifications = s.notifications + 1 ∧
      (tick env l ts s).activeScene = (sceneLoop l (ts - t0)).1) := by
  have hnle : ¬ (ts - t0 ≥ totalMs l) := not_le.mpr hlt
  constructor
  · intro hidx
    simp [tick, hce, hcx, ht, hnle, hidx]
  · intro hidx
    simp [tick, hce, hcx, ht, hnle, hidx]

/-- Witness for the notification theorem: an early tick of a plain
playback resolves scene 0, which is already indicated, so no
notification is issued. -/
theorem tick_notification_C9_witness :
    (tick envOk catalog3 1000 sPlaying).notifications =
      sPlaying.notifications ∧
    (tick envOk catalog3 1000 sPlaying).activeScene = sPlaying.activeScene := by
  have h := tick_notification_C9 envOk catalog3 sPlaying 1000 0 rfl rfl rfl
    (by norm_num [totalMs, catalog3, durMs])
  exact h.1 (by norm_num [sPlaying, initStudio, sceneLoop, sceneLoopGo, catalog3, durMs])

/-- C10: stopping the recorder with no active capture session (recorder
ref null or recorder already inactive) resolves at once as a no-op —
it returns the state unchanged — and the teardown path likewise leaves
the chunk buffer, stream, recorder handle and playback state
untouched. -/
theorem stopRecorder_noop_C10 (s : Studio) (fin : Bool)
    (h : s.recorder = none ∨ s.recorder = some RState.inactive) :
    stopRecorderThen fin none s = s ∧
    ((teardownOp s).recorder = s.recorder ∧
     (teardownOp s).chunks = s.chunks ∧
     (teardownOp s).streamRef = s.streamRef ∧
     (teardownOp s).liveStreamTracks = s.liveStreamTracks ∧
     (teardownOp s).playbackState = s.playbackState ∧
     (teardownOp s).videoUrl = s.videoUrl ∧
     (teardownOp s).pending = s.pending) := by
  have hne : ¬ s.recorder = some RState.recording := by
    rcases h with h | h <;> simp [h]
  constructor
  · simp [stopRecorderThen, hne]
  · simp [teardownOp, clearAnimation, stopRecorderThen, hne]

/-- Witness for the stop-recorder no-op theorem on the initial state. -/
theorem stopRecorder_noop_C10_witness :
    stopRecorderThen false none initStudio = initStudio ∧
    ((teardownOp initStudio).recorder = initStudio.recorder ∧
     (teardownOp initStudio).chunks = initStudio.chunks ∧
     (teardownOp initStudio).streamRef = initStudio.streamRef ∧
     (teardownOp initStudio).liveStreamTracks = initStudio.liveStreamTracks ∧
     (teardownOp initStudio).playbackState = initStudio.playbackState ∧
     (teardownOp initStudio).videoUrl = initStudio.videoUrl ∧
     (teardownOp initStudio).pending = initStudio.pending) :=
  stopRecorder_noop_C10 initStudio false (Or.inl rfl)

lemma stopRecorderThen_videoUrl (fin : Bool) (cont : Option PlaybackState)
    (s : Studio) : (stopRecorderThen fin cont s).videoUrl = s.videoUrl := by
  cases cont <;> (unfold stopRecorderThen; split_ifs <;> simp)

lemma stopRecorderThen_liveArtifacts (fin : Bool) (cont : Option PlaybackState)
    (s : Studio) :
    (stopRecorderThen fin cont s).liveArtifacts = s.liveArtifacts := by
  cases cont <;> (unfold stopRecorderThen; split_ifs <;> simp)

lemma tick_videoUrl (env : Env) (l : List SceneCue) (ts : ℚ) (s : Studio) :
    (tick env l ts s).videoUrl = s.videoUrl := by
  unfold tick
  split_ifs <;>
    simp [stopRecorderThen_videoUrl, apply_ite Studio.videoUrl]

lemma tick_liveArtifacts (env : Env) (l : List SceneCue) (ts : ℚ) (s : Studio) :
    (tick env l ts s).liveArtifacts = s.liveArtifacts := by
  unfold tick
  split_ifs <;>
    simp [stopRecorderThen_liveArtifacts, apply_ite Studio.liveArtifacts]

lemma stopPlayback_videoUrl (s : Studio) :
    (stopPlayback s).videoUrl = s.videoUrl := by
  unfold stopPlayback clearAnimation
  dsimp only
  split_ifs <;> simp [stopRecorderThen_videoUrl]

lemma stopPlayback_liveArtifacts (s : Studio) :
    (stopPlayback s).liveArtifacts = s.liveArtifacts := by
  unfold stopPlayback clearAnimation
  dsimp only
  split_ifs <;> simp [stopRecorderThen_liveArtifacts]

lemma teardownOp_videoUrl (s : Studio) :
    (teardownOp s).videoUrl = s.videoUrl := by
  unfold teardownOp clearAnimation
  simp [stopRecorderThen_videoUrl]

lemma teardownOp_liveArtifacts (s : Studio) :
    (teardownOp s).liveArtifacts = s.liveArtifacts := by
  unfold teardownOp clearAnimation
  simp [stopRecorderThen_liveArtifacts]

lemma artifactInv_of_preserved {s s' : Studio} (h : artifactInv s)
    (hv : s'.videoUrl = s.videoUrl) (hl : s'.liveArtifacts = s.liveArtifacts) :
    artifactInv s' := by
  unfold artifactInv at h ⊢
  rw [hv, hl, h]

lemma artifactInv_startPlayback (record : Bool) (env : Env) (s : Studio)
    (h : artifactInv s) : artifactInv (startPlayback record env s) := by
  unfold artifactInv at h ⊢
  unfold startPlayback clearAnimation initialiseRecorder
  rcases hv : s.videoUrl with _ | u <;> rw [hv] at h <;>
    simp only [Option.toList] at h <;>
    split_ifs <;>
    simp_all [hv]

lemma artifactInv_finalizeComplete (s : Studio) (h : artifactInv s) :
    artifactInv (finalizeComplete s) := by
  unfold artifactInv at h ⊢
  unfold finalizeComplete
  rcases hp : s.pending with _ | fc
  · simp [h]
  · rcases fc with ⟨fin, cont⟩
    rcases hv : s.videoUrl with _ | u <;> rw [hv] at h <;>
      simp only [Option.toList] at h <;>
      cases fin <;> simp_all [hv]

lemma artifactInv_step {env : Env} {l : List SceneCue} {s s' : Studio}
    (hs : Step env l s s') (h : artifactInv s) : artifactInv s' := by
  cases hs with
  | start record => exact artifactInv_startPlayback record env s h
  | tickStep ts =>
    exact artifactInv_of_preserved h (tick_videoUrl env l ts s)
      (tick_liveArtifacts env l ts s)
  | stop =>
    exact artifactInv_of_preserved h (stopPlayback_videoUrl s)
      (stopPlayback_liveArtifacts s)
  | finalize => exact artifactInv_finalizeComplete s h
  | teardown =>
    exact artifactInv_of_preserved h (teardownOp_videoUrl s)
      (teardownOp_liveArtifacts s)
  | chunk c => exact artifactInv_of_preserved h rfl rfl

lemma artifactInv_reachable {env : Env} {l : List SceneCue} {s : Studio}
    (h : Reachable env l s) : artifactInv s := by
  unfold Reachable at h
  induction h with
  | refl => simp [artifactInv, initStudio]
  | tail _ hstep ih => exact artifactInv_step hstep ih

lemma startPlayback_clears (record : Bool) (env : Env) (s : Studio) (u : ℕ)
    (hce : env.hasCanvas = true) (hcx : env.hasCtx = true)
    (h : artifactInv s) (hv : s.videoUrl = some u) :
    (startPlayback record env s).videoUrl = none ∧
    (startPlayback record env s).liveArtifacts = [] := by
  have hla : s.liveArtifacts = [u] := by
    unfold artifactInv at h
    rw [hv] at h
    simpa [Option.toList] using h
  unfold startPlayback clearAnimation initialiseRecorder
  simp only [hce, hcx]
  split_ifs <;> simp_all [hv, hla]

/-- C4: at every instant at most one produced artifact resource is
alive — every reachable state holds at most one unrevoked object URL —
and starting any playback (record or not) releases the previously
produced artifact URL before replacing the reference with null. -/
theorem artifact_discipline_C4 :
    (∀ (env : Env) (l : List SceneCue) (s : Studio),
      Reachable env l s → s.liveArtifacts.length ≤ 1) ∧
    (∀ (env : Env) (s : Studio) (record : Bool) (u : ℕ),
      env.hasCanvas = true → env.hasCtx = true → artifactInv s →
      s.videoUrl = some u →
      u ∉ (startPlayback record env s).liveArtifacts ∧
      (startPlayback record env s).videoUrl = none) := by
  constructor
  · intro env l s h
    have hinv := artifactInv_reachable h
    unfold artifactInv at hinv
    rw [hinv]
    cases s.videoUrl <;> simp [Option.toList]
  · intro env s record u hce hcx hinv hv
    obtain ⟨h1, h2⟩ := startPlayback_clears record env s u hce hcx hinv hv
    rw [h2]
    exact ⟨List.not_mem_nil u, h1⟩

/-- Witness for the artifact-discipline theorem: restarting playback on
a completed state holding artifact 0 revokes it and clears the
reference. -/
theorem artifact_discipline_C4_witness :
    0 ∉ (startPlayback false envOk sCompleted).liveArtifacts ∧
    (startPlayback false envOk sCompleted).videoUrl = none :=
  artifact_discipline_C4.2 envOk sCompleted false 0 rfl rfl
    (by simp [artifactInv, sCompleted, initStudio]) rfl

lemma cityGo_snd (M : CMath) (p : ℚ) (a : String) (r : ℕ → ℚ) :
    ∀ (pairs : List (ℕ × ℕ)) (k : ℕ),
      (cityGo M p a r pairs k).2 = k + pairs.length := by
  intro pairs
  induction pairs with
  | nil => intro k; simp [cityGo]
  | cons li rest ih =>
    intro k
    simp only [cityGo, List.length_cons]
    rw [ih (k + 1)]
    omega

lemma cityGo_bars (M : CMath) (p : ℚ) (a : String) (r : ℕ → ℚ) :
    ∀ (pairs : List (ℕ × ℕ)) (k : ℕ),
      (pairs.map (fun li => cityBar M p li.1 li.2)).Sublist
        (cityGo M p a r pairs k).1 := by
  intro pairs
  induction pairs with
  | nil => intro k; simp [cityGo]
  | cons li rest ih =>
    intro k
    simp only [cityGo, List.map_cons, cityIter, List.cons_append]
    exact List.Sublist.cons₂ _
      ((ih (k + 1)).trans (List.sublist_append_right _ _))

/-- C7: the frame compositor is deterministic in the ambient
randomness: for any scene whose archetype is not cities, two paints
with an identical (scene, sceneProgress, globalProgress) triple
produce identical command traces whatever the random stream; the
cities routine consumes exactly one random draw per iteration (88 in
total, independently of the stream, so randomness never affects its
control flow or timing) and every run contains the same 88 silhouette
bars in order. -/
theorem compositor_determinism_C7 :
    (∀ (M : CMath) (sc : SceneCue) (sp gp : ℚ) (r1 r2 : ℕ → ℚ) (k1 k2 : ℕ),
      sc.illustration ≠ Illustration.cities →
      (drawScene M sc sp gp r1 k1).1 = (drawScene M sc sp gp r2 k2).1) ∧
    (∀ (M : CMath) (p : ℚ) (a : String) (r : ℕ → ℚ) (k : ℕ),
      (drawCityLights M p a r k).2 = k + 88 ∧
      (cityBars M p).length = 88 ∧
      (cityBars M p).Sublist (drawCityLights M p a r k).1) := by
  constructor
  · intro M sc sp gp r1 r2 k1 k2 hne
    cases h : sc.illustration <;>
      first
        | exact absurd h hne
        | simp [drawScene, drawIllustration, h]
  · intro M p a r k
    have h88 : cityPairs.length = 88 := by rfl
    refine ⟨?_, ?_, ?_⟩
    · simp only [drawCityLights, cityGo_snd, h88]
    · simp only [cityBars, List.length_map, h88]
    · exact cityGo_bars M p a r cityPairs k

/-- Witness for the compositor-determinism theorem: the sunrise scene
of the example catalog painted under two different random streams, and
the random consumption count of a cities run. -/
theorem compositor_determinism_C7_witness :
    (drawScene M0 (catalog3.getD 0 default) 0 0 (fun _ => 0) 0).1 =
      (drawScene M0 (catalog3.getD 0 default) 0 0 (fun _ => 1) 5).1 ∧
    (drawCityLights M0 0 "x" (fun _ => 0) 0).2 = 0 + 88 :=
  ⟨compositor_determinism_C7.1 M0 (catalog3.getD 0 default) 0 0
      (fun _ => 0) (fun _ => 1) 0 5 (by decide),
   (compositor_determinism_C7.2 M0 0 "x" (fun _ => 0) 0).1⟩

lemma wrapGo_alpha (M : CMath) (alpha : ℚ) (style : Fill) (font : String)
    (x maxW lineH : ℚ) :
    ∀ (ws : List String) (line : String) (y : ℚ) (c : Cmd),
      c ∈ wrapGo M alpha style font x maxW lineH ws line y →
      Cmd.alphaOf c = some alpha := by
  intro ws
  induction ws with
  | nil =>
    intro line y c hc
    simp only [wrapGo, List.mem_singleton] at hc
    simp [hc, Cmd.alphaOf]
  | cons w ws ih =>
    intro line y c hc
    simp only [wrapGo] at hc
    split at hc
    · rcases List.mem_cons.mp hc with h | h
      · simp [h, Cmd.alphaOf]
      · exact ih _ _ _ h
    · exact ih _ _ _ hc

lemma wrapGo_texts (M : CMath) (alpha : ℚ) (style : Fill) (font : String)
    (x maxW lineH : ℚ) :
    ∀ (ws : List String) (line : String) (y : ℚ),
      textsOf (wrapGo M alpha style font x maxW lineH ws line y) =
        greedyWrapSpec M.measure maxW ws line := by
  intro ws
  induction ws with
  | nil =>
    intro line y
    simp [wrapGo, greedyWrapSpec, textsOf, Cmd.textOf]
  | cons w ws ih =>
    intro line y
    simp only [wrapGo, greedyWrapSpec]
    split
    · simp only [textsOf, List.filterMap_cons, Cmd.textOf]
      rw [← textsOf, ih]
    · exact ih _ _

/-- C8: the title card computes its opacity as sin(sceneProgress * pi)
clamped to [0, 1]; every painting command it issues (the translucent
backing panel, the title, the subtitle and each word-wrapped
description line) carries that single shared alpha, and the texts it
draws are the title, the subtitle and exactly the greedy wrap of the
description under the fixed column width. -/
theorem title_card_C8 (M : CMath) (sc : SceneCue) (sp : ℚ) :
    (∀ c ∈ drawTitleCard M sc sp, ∀ a, Cmd.alphaOf c = some a →
      a = min 1 (max 0 (M.sin (sp * M.pi)))) ∧
    textsOf (drawTitleCard M sc sp) =
      sc.title :: sc.subtitle ::
        greedyWrapSpec M.measure (CANVAS_WIDTH * 0.24)
          (sc.description.splitOn " ") "" := by
  constructor
  · intro c hc a ha
    simp only [drawTitleCard, wrapText, List.mem_append, List.mem_cons,
      List.not_mem_nil, or_false] at hc
    rcases hc with ((h | h | h | h) | h) | h
    · rw [h] at ha; simp [Cmd.alphaOf] at ha
    · rw [h] at ha
      simp only [Cmd.alphaOf, Option.some.injEq] at ha
      rw [← ha]; rfl
    · rw [h] at ha
      simp only [Cmd.alphaOf, Option.some.injEq] at ha
      rw [← ha]; rfl
    · rw [h] at ha
      simp only [Cmd.alphaOf, Option.some.injEq] at ha
      rw [← ha]; rfl
    · have := wrapGo_alpha M (titleOpacity M sp)
        (Fill.color "rgba(255, 255, 255, 0.75)") "400 24px var(--font-arabic)"
        (CANVAS_WIDTH * 0.64) (CANVAS_WIDTH * 0.24) 30
        (sc.description.splitOn " ") "" (160 + 90) c h
      rw [this] at ha
      simp only [Option.some.injEq] at ha
      rw [← ha]; rfl
    · rw [h] at ha; simp [Cmd.alphaOf] at ha
  · simp only [drawTitleCard, wrapText, textsOf, List.filterMap_append,
      List.filterMap_cons, Cmd.textOf, List.filterMap_nil]
    rw [← textsOf, wrapGo_texts]
    simp

/-- Witness for the title-card theorem on the example catalog head
scene under the concrete math environment. -/
theorem title_card_C8_witness :
    textsOf (drawTitleCard M0 (catalog3.getD 0 default) 0) =
      (catalog3.getD 0 default).title :: (catalog3.getD 0 default).subtitle ::
        greedyWrapSpec M0.measure (CANVAS_WIDTH * 0.24)
          ((catalog3.getD 0 default).description.splitOn " ") "" :=
  (title_card_C8 M0 (catalog3.getD 0 default) 0).2

end WorldVideo
